import Mathlib

/-!
Shallow embedding of the iterative-midpoint-refinement path planner
(src/main.py and src/main_gif.py).

Modelling conventions:
* Coordinates are exact rationals.  The Python code computes with floats;
  all control-flow properties verified here are stated over exact arithmetic.
* The only square root in the code is math.hypot inside
  perpendicular_direction.  Its exact value is irrational in general, so the
  whole development is parameterised by an abstract square-root oracle
  rsqrt applied to the radicand dx*dx + dy*dy.  Every theorem quantifies over
  rsqrt, hence holds in particular for the true square root.
* The tolerance test math.hypot(px - mx, py - my) < tolerance is encoded
  exactly: for the true nonnegative square root, hypot < tol holds iff
  0 < tol and (px - mx)^2 + (py - my)^2 < tol^2.
* The unbounded recursion of refine_path is embedded with explicit fuel;
  running out of fuel yields none (the Python call would still be running).
* Python raising an exception is embedded as none / Except.error.
-/

namespace MidpointRefine

abbrev Point : Type := ℚ × ℚ

abbrev Polygon : Type := List Point

/-- Epsilon constant 1e-10 appearing in point_in_polygon and line_intersection. -/
def eps : ℚ := 1 / 10000000000

/-- Loop body of point_in_polygon for the edge from previous vertex vj to
current vertex vi: toggle the inside flag when the horizontal ray from (x, y)
crosses the edge.  Rational division is total in Lean (z / 0 = 0) whereas
Python would raise ZeroDivisionError when vj.2 - vi.2 + eps = 0; no theorem
below depends on that case. -/
def pip_step (x y : ℚ) (vi vj : Point) (inside : Bool) : Bool :=
  if (decide (vi.2 > y) != decide (vj.2 > y)) &&
      decide (x < (vj.1 - vi.1) * (y - vi.2) / (vj.2 - vi.2 + eps) + vi.1)
  then !inside else inside

/-- Embedding of point_in_polygon (ray casting): iterate over the vertex list
with index i for the current vertex and the trailing index (j starts at n - 1
and then trails i) for the previous one, toggling the inside flag on each
qualifying edge. -/
def point_in_polygon (pt : Point) (poly : Polygon) : Bool :=
  let n := poly.length
  (List.range n).foldl
    (fun inside i =>
      pip_step pt.1 pt.2 (poly.getD i ((0 : ℚ), (0 : ℚ)))
        (poly.getD ((i + n - 1) % n) ((0 : ℚ), (0 : ℚ))) inside)
    false

/-- Embedding of line_intersection: parameters (t, u) of the crossing of the
lines through p, q and a, b, or none when the determinant magnitude is below
eps. -/
def line_intersection (p q a b : Point) : Option (ℚ × ℚ) :=
  let denom := (p.1 - q.1) * (a.2 - b.2) - (p.2 - q.2) * (a.1 - b.1)
  if |denom| < eps then none
  else
    some (((p.1 - a.1) * (a.2 - b.2) - (p.2 - a.2) * (a.1 - b.1)) / denom,
          ((p.1 - a.1) * (p.2 - q.2) - (p.2 - a.2) * (p.1 - q.1)) / denom)

/-- Embedding of polygon_line_intersections: t parameters of true
segment-segment intersections of p-q with the polygon edges, sorted ascending.
Python sorted() is modelled by insertion sort (both are stable and agree on
rational keys). -/
def polygon_line_intersections (p q : Point) (poly : Polygon) : List ℚ :=
  let n := poly.length
  let ts := (List.range n).filterMap fun i =>
    match line_intersection p q (poly.getD i ((0 : ℚ), (0 : ℚ)))
        (poly.getD ((i + 1) % n) ((0 : ℚ), (0 : ℚ))) with
    | none => none
    | some (t, u) =>
      if 0 ≤ t ∧ t ≤ 1 ∧ 0 ≤ u ∧ u ≤ 1 then some t else none
  List.insertionSort (· ≤ ·) ts

/-- Embedding of interpolate: affine combination of p and q. -/
def interpolate (p : Point) (t : ℚ) (q : Point) : Point :=
  (p.1 * (1 - t) + q.1 * t, p.2 * (1 - t) + q.2 * t)

/-- Embedding of perpendicular_direction.  math.hypot(dx, dy) is modelled as
rsqrt (dx*dx + dy*dy) for the abstract square-root oracle rsqrt. -/
def perpendicular_direction (rsqrt : ℚ → ℚ) (p q : Point) : Point :=
  let dx := q.1 - p.1
  let dy := q.2 - p.2
  let mag := rsqrt (dx * dx + dy * dy)
  if mag = 0 then ((0 : ℚ), (0 : ℚ)) else (-dy / mag, dx / mag)

/-- Embedding of the inner loop of adjust_point_out_of_polygon for one
direction: starting from candidate c at step index i, test up to r further
candidates, returning the first one outside the polygon together with its step
index; delta is the per-step displacement sign * step * perp. -/
def escape_scan (poly : Polygon) (delta : Point) :
    Point → Nat → Nat → Option (Point × Nat)
  | _, _, 0 => none
  | c, i, r + 1 =>
    if point_in_polygon c poly then
      escape_scan poly delta (c.1 + delta.1, c.2 + delta.2) (i + 1) r
    else some (c, i)

/-- One directional scan of adjust_point_out_of_polygon (sign = 1 or -1),
started at mid with step index 0 and max_iter tests. -/
def dir_scan (rsqrt : ℚ → ℚ) (mid p q : Point) (poly : Polygon)
    (step : ℚ) (max_iter : Nat) (sign : ℚ) : Option (Point × Nat) :=
  let perp := perpendicular_direction rsqrt p q
  escape_scan poly (sign * step * perp.1, sign * step * perp.2) mid 0 max_iter

/-- Ordering of escape candidates by recorded displacement (second
component). -/
def dispLE (a b : Point × ℚ) : Prop := a.2 ≤ b.2

instance : DecidableRel dispLE := fun a b => inferInstanceAs (Decidable (a.2 ≤ b.2))

/-- Embedding of adjust_point_out_of_polygon: scan both perpendicular
directions (+1 first, then -1), record each successful candidate with its
displacement i * step, stably sort by displacement and return the first
candidate, or mid itself when neither direction escapes.  Python list.sort is
stable; insertion sort with a non-strict comparison is the matching stable
sort. -/
def adjust_point_out_of_polygon (rsqrt : ℚ → ℚ) (mid p q : Point)
    (poly : Polygon) (step : ℚ) (max_iter : Nat) : Point :=
  let candidates := ([1, -1] : List ℚ).filterMap fun sign =>
    (dir_scan rsqrt mid p q poly step max_iter sign).map
      fun ci => (ci.1, (ci.2 : ℚ) * step)
  match List.insertionSort dispLE candidates with
  | [] => mid
  | c :: _ => c.1

/-- Sampling core of is_collision_free_poly: all of the steps + 1 points
interpolate p (i / steps) q for i = 0 .. steps avoid every obstacle.  Only
meaningful for steps > 0; the division-by-zero hazard of steps = 0 is captured
by is_collision_free_poly below. -/
def collision_samples_free (p q : Point) (obstacles : List Polygon)
    (steps : Nat) : Bool :=
  (List.range (steps + 1)).all fun i =>
    obstacles.all fun poly =>
      !point_in_polygon (interpolate p ((i : ℚ) / (steps : ℚ)) q) poly

/-- Embedding of is_collision_free_poly.  Python computes t = i / steps, which
raises ZeroDivisionError when steps = 0; that failure is embedded as none. -/
def is_collision_free_poly (p q : Point) (obstacles : List Polygon)
    (steps : Nat) : Option Bool :=
  if steps = 0 then none else some (collision_samples_free p q obstacles steps)

/-- Embedding of the obstacle-selection loop of refine_path: the first obstacle
whose intersection list has at least two entries, together with that list. -/
def find_split (p q : Point) : List Polygon → Option (Polygon × List ℚ)
  | [] => none
  | poly :: rest =>
    if 2 ≤ (polygon_line_intersections p q poly).length then
      some (poly, polygon_line_intersections p q poly)
    else find_split p q rest

/-- Split parameter of refine_path: (ts[0] + ts[-1]) / 2 on the sorted
intersection list. -/
def split_t_mid (ts : List ℚ) : ℚ := (ts.headD 0 + ts.getLastD 0) / 2

/-- Exact embedding of the comparison math.hypot(px - mx, py - my) <
tolerance: for the true nonnegative square root this holds iff the tolerance
is positive and the squared distance is below the squared tolerance. -/
def dist_lt (p m : Point) (tolerance : ℚ) : Bool :=
  decide (0 < tolerance ∧
    (p.1 - m.1) * (p.1 - m.1) + (p.2 - m.2) * (p.2 - m.2) < tolerance * tolerance)

/-- Embedding of the fallback-midpoint computation of refine_path: start from
the arithmetic midpoint and, for each obstacle in order containing the current
midpoint, replace it by its adjusted escape (step 0.2 = 1/5, max_iter 20, the
source defaults). -/
def fallback_mid (rsqrt : ℚ → ℚ) (p q : Point) (obstacles : List Polygon) :
    Point :=
  obstacles.foldl
    (fun m poly =>
      if point_in_polygon m poly then
        adjust_point_out_of_polygon rsqrt m p q poly (1 / 5) 20
      else m)
    ((p.1 + q.1) / 2, (p.2 + q.2) / 2)

/-- One trace record of main.py: the global segments list receives (p, q,
depth) once per call. -/
abbrev TraceRec : Type := Point × Point × Nat

/-- Combination step shared by both recursive branches of refine_path in
main.py: left_path[:-1] ++ right_path for the paths, and the trace of the
parent record followed by the left then right traces (the order the global
list receives them). -/
def glue (rec : TraceRec) (l r : Option (List Point × List TraceRec)) :
    Option (List Point × List TraceRec) :=
  match l, r with
  | some lp, some rp => some (lp.1.dropLast ++ rp.1, rec :: (lp.2 ++ rp.2))
  | _, _ => none

/-- Combination step of refine_path in main_gif.py: left_path[:-1] ++
right_path. -/
def glue_path (l r : Option (List Point)) : Option (List Point) :=
  match l, r with
  | some lp, some rp => some (lp.dropLast ++ rp)
  | _, _ => none

/-- Combination step for counting recursive calls: this call plus the calls of
the two children. -/
def glue_count (l r : Option Nat) : Option Nat :=
  match l, r with
  | some a, some b => some (a + b + 1)
  | _, _ => none

/-- Embedding of refine_path from main.py, with explicit fuel and with the
global segments list made explicit as the second component of the result.
Each call appends its own (p, q, depth) record first; the collision check uses
the source default steps = 20 (nonzero, so the sampling loop cannot divide by
zero and collision_samples_free is its value); adjust_point_out_of_polygon is
called with the source defaults step = 0.2, max_iter = 20. -/
def refineAux (rsqrt : ℚ → ℚ) :
    Nat → Point → Point → List Polygon → ℚ → Nat →
    Option (List Point × List TraceRec)
  | 0, _, _, _, _, _ => none
  | fuel + 1, p, q, obstacles, tolerance, depth =>
    if collision_samples_free p q obstacles 20 then
      some ([p, q], [(p, q, depth)])
    else
      match find_split p q obstacles with
      | some (poly, ts) =>
        let mid := adjust_point_out_of_polygon rsqrt
          (interpolate p (split_t_mid ts) q) p q poly (1 / 5) 20
        glue (p, q, depth)
          (refineAux rsqrt fuel p mid obstacles tolerance (depth + 1))
          (refineAux rsqrt fuel mid q obstacles tolerance (depth + 1))
      | none =>
        let mid := fallback_mid rsqrt p q obstacles
        if dist_lt p mid tolerance then some ([p, mid, q], [(p, q, depth)])
        else
          glue (p, q, depth)
            (refineAux rsqrt fuel p mid obstacles tolerance (depth + 1))
            (refineAux rsqrt fuel mid q obstacles tolerance (depth + 1))

/-- The path returned by refine_path of main.py (depth starts at 0; the trace
is discarded). -/
def refine_path (rsqrt : ℚ → ℚ) (fuel : Nat) (p q : Point)
    (obstacles : List Polygon) (tolerance : ℚ) : Option (List Point) :=
  (refineAux rsqrt fuel p q obstacles tolerance 0).map Prod.fst

/-- Embedding of refine_path from main_gif.py: identical geometry, an
iteration counter instead of the depth, and no trace (saving a PNG frame has
no effect on the computation). -/
def refine_path_gif (rsqrt : ℚ → ℚ) :
    Nat → Point → Point → List Polygon → ℚ → Nat → Option (List Point)
  | 0, _, _, _, _, _ => none
  | fuel + 1, p, q, obstacles, tolerance, iteration =>
    if collision_samples_free p q obstacles 20 then some [p, q]
    else
      match find_split p q obstacles with
      | some (poly, ts) =>
        let mid := adjust_point_out_of_polygon rsqrt
          (interpolate p (split_t_mid ts) q) p q poly (1 / 5) 20
        glue_path
          (refine_path_gif rsqrt fuel p mid obstacles tolerance (iteration + 1))
          (refine_path_gif rsqrt fuel mid q obstacles tolerance (iteration + 1))
      | none =>
        let mid := fallback_mid rsqrt p q obstacles
        if dist_lt p mid tolerance then some [p, mid, q]
        else
          glue_path
            (refine_path_gif rsqrt fuel p mid obstacles tolerance (iteration + 1))
            (refine_path_gif rsqrt fuel mid q obstacles tolerance (iteration + 1))

/-- Number of recursive refine_path calls performed, following the same
branching as refineAux (used to state that the trace holds one record per
call). -/
def refine_calls (rsqrt : ℚ → ℚ) :
    Nat → Point → Point → List Polygon → ℚ → Option Nat
  | 0, _, _, _, _ => none
  | fuel + 1, p, q, obstacles, tolerance =>
    if collision_samples_free p q obstacles 20 then some 1
    else
      match find_split p q obstacles with
      | some (poly, ts) =>
        let mid := adjust_point_out_of_polygon rsqrt
          (interpolate p (split_t_mid ts) q) p q poly (1 / 5) 20
        glue_count
          (refine_calls rsqrt fuel p mid obstacles tolerance)
          (refine_calls rsqrt fuel mid q obstacles tolerance)
      | none =>
        let mid := fallback_mid rsqrt p q obstacles
        if dist_lt p mid tolerance then some 1
        else
          glue_count
            (refine_calls rsqrt fuel p mid obstacles tolerance)
            (refine_calls rsqrt fuel mid q obstacles tolerance)

/-- Modelled from the spec: the error raised on an obstacle set containing a
polygon with fewer than 3 vertices.  The source has no such validation; the
spec (section 7) prescribes an explicit InvalidObstacleError at ObstacleSet
construction time. -/
inductive InvalidObstacleError : Type
  | tooFewVertices : Polygon → InvalidObstacleError
deriving DecidableEq

/-- Modelled from the spec: ObstacleSet construction validating every polygon,
failing fast on the first polygon with fewer than 3 vertices.  The source has
no ObstacleSet constructor; this definition follows section 7 of the spec. -/
def mkObstacleSet (polys : List Polygon) :
    Except InvalidObstacleError (List Polygon) :=
  match polys.find? (fun poly => decide (poly.length < 3)) with
  | some bad => .error (.tooFewVertices bad)
  | none => .ok polys

/-- Modelled from the spec: the refinement engine behind the validating
ObstacleSet constructor; validation happens before any refinement work. -/
def refine_path_validated (rsqrt : ℚ → ℚ) (fuel : Nat) (p q : Point)
    (polys : List Polygon) (tolerance : ℚ) :
    Except InvalidObstacleError (Option (List Point)) :=
  match mkObstacleSet polys with
  | .error e => .error e
  | .ok obstacles => .ok (refine_path rsqrt fuel p q obstacles tolerance)

/-- Reference square-root oracle used in concrete evaluations below; it agrees
with the true square root on the radicands 0 and 1, the only ones arising in
the concrete instances. -/
def unitSqrt : ℚ → ℚ := fun x => if x = 1 then 1 else 0

/-- Concrete rectangle obstacle used by the concrete instances: it contains
the whole segment from (0, 0) to (1, 0), so that segment fails the sampled
collision check while producing no edge intersections. -/
def sqPoly : Polygon :=
  [(-1, -3/10), (2, -3/10), (2, 3/10), (-1, 3/10)]

/-- The obstacle set holding just sqPoly. -/
def sqObs : List Polygon := [sqPoly]

/-! ### General helper lemmas -/

theorem foldl_fixed {α β : Type} (f : β → α → β) (l : List α)
    (h : ∀ x ∈ l, ∀ acc, f acc x = acc) : ∀ b, l.foldl f b = b := by
  induction l with
  | nil => intro b; rfl
  | cons a t ih =>
    intro b
    rw [List.foldl_cons, h a (by simp)]
    exact ih (fun x hx acc => h x (by simp [hx]) acc) b

theorem getD_mem_of_lt {α : Type} (l : List α) (i : Nat) (d : α)
    (h : i < l.length) : l.getD i d ∈ l := by
  rw [List.getD_eq_getElem l d h]
  exact l.getElem_mem h

theorem pip_step_no_cross (x y : ℚ) (vi vj : Point) (inside : Bool)
    (h : decide (vi.2 > y) = decide (vj.2 > y)) :
    pip_step x y vi vj inside = inside := by
  unfold pip_step
  rw [h]
  simp

/-! ### Claims C5 and C9: point_in_polygon on bounding boxes and degenerate
polygons -/

/-- C5 (amended): for every polygon and every query point whose y-coordinate
is strictly outside the y-range of the vertices, point_in_polygon returns
false.  (The analogous x-range half of the original claim is refuted by
pip_bbox_claim_counterexample below.) -/
theorem pip_outside_y_range_false (poly : Polygon) (x y : ℚ)
    (h : (∀ v ∈ poly, y < v.2) ∨ (∀ v ∈ poly, v.2 < y)) :
    point_in_polygon (x, y) poly = false := by
  unfold point_in_polygon
  refine foldl_fixed _ _ ?_ false
  intro i hi acc
  have hin : i < poly.length := List.mem_range.mp hi
  have hn : 0 < poly.length := Nat.lt_of_le_of_lt (Nat.zero_le i) hin
  have hjn : (i + poly.length - 1) % poly.length < poly.length :=
    Nat.mod_lt _ hn
  have hvi := getD_mem_of_lt poly i ((0 : ℚ), (0 : ℚ)) hin
  have hvj := getD_mem_of_lt poly ((i + poly.length - 1) % poly.length)
    ((0 : ℚ), (0 : ℚ)) hjn
  refine pip_step_no_cross _ _ _ _ _ ?_
  rcases h with h | h
  · rw [decide_eq_true (h _ hvi), decide_eq_true (h _ hvj)]
  · rw [decide_eq_false (not_lt_of_gt (h _ hvi)),
      decide_eq_false (not_lt_of_gt (h _ hvj))]

/-- Witness for C5 (amended) at a concrete input: the point (0, 8) lies
strictly above every vertex of the square obstacle, and the test returns
false. -/
theorem pip_outside_y_range_false_witness :
    point_in_polygon ((0 : ℚ), (8 : ℚ))
      [((4 : ℚ), (4 : ℚ)), (7, 4), (7, 7), (4, 7)] = false :=
  pip_outside_y_range_false _ 0 8 (Or.inr (by with_unfolding_all decide))

set_option maxRecDepth 100000 in
/-- Counterexample to C5 as stated: a query point whose x-coordinate (12) is
strictly above the largest vertex x-coordinate (10) for which
point_in_polygon nevertheless returns true.  The epsilon offset in the edge
slope denominator moves the ray-crossing threshold of the nearly horizontal
top edge out to x = 15, beyond the bounding box. -/
theorem pip_bbox_claim_counterexample :
    point_in_polygon (12, 1 - 3 * eps / 2)
      [((5 : ℚ), (-5 : ℚ)), (10, 1 - 2 * eps), ((0 : ℚ), (1 : ℚ))] = true ∧
    ([((5 : ℚ), (-5 : ℚ)), (10, 1 - 2 * eps), ((0 : ℚ), (1 : ℚ))] : Polygon).all
      (fun v => decide (v.1 < 12)) = true :=
  ⟨by with_unfolding_all decide, by with_unfolding_all decide⟩

/-- C9 (amended): a polygon with fewer than 2 vertices contains no query
point: point_in_polygon always returns false on it.  (The original claim,
covering 2-vertex polygons too, is refuted by pip_two_vertex_counterexample
below.) -/
theorem pip_degenerate_false (poly : Polygon) (h : poly.length ≤ 1)
    (pt : Point) : point_in_polygon pt poly = false := by
  match poly, h with
  | [], _ => rfl
  | [v], _ =>
    show pip_step pt.1 pt.2 ([v].getD 0 ((0 : ℚ), (0 : ℚ)))
      ([v].getD ((0 + 1 - 1) % 1) ((0 : ℚ), (0 : ℚ))) false = false
    exact pip_step_no_cross _ _ _ _ _ rfl

/-- Witness for C9 (amended) at a concrete input: a one-vertex polygon
contains nothing. -/
theorem pip_degenerate_false_witness :
    point_in_polygon ((3 : ℚ), (3 : ℚ)) [((1 : ℚ), (1 : ℚ))] = false :=
  pip_degenerate_false [((1 : ℚ), (1 : ℚ))] (by decide) ((3 : ℚ), (3 : ℚ))

set_option maxRecDepth 100000 in
/-- Counterexample to C9 as stated: a 2-vertex polygon for which
point_in_polygon returns true at a concrete query point.  The two traversals
of the doubled edge use slope denominators offset by eps in opposite
directions (3 * eps and -eps here), so the two ray-crossing thresholds (1/3
and 0) differ and a point between them is toggled exactly once. -/
theorem pip_two_vertex_counterexample :
    point_in_polygon (1 / 4, eps) [((0 : ℚ), (0 : ℚ)), (1, 2 * eps)] = true ∧
    ([((0 : ℚ), (0 : ℚ)), (1, 2 * eps)] : Polygon).length = 2 :=
  ⟨by with_unfolding_all decide, by decide⟩

/-! ### Claim C10: is_collision_free_poly needs steps at least 1 -/

/-- C10: for every steps at least 1, is_collision_free_poly is total and
returns a boolean that is true exactly when all steps + 1 samples
interpolate p (i / steps) q for i = 0 .. steps avoid every obstacle; the
samples include both endpoints (i = 0 gives p, i = steps gives q).  At
steps = 0 the Python code divides by zero instead of returning a value,
embedded as the none result. -/
theorem is_collision_free_poly_requires_steps (p q : Point)
    (obstacles : List Polygon) (steps : Nat) :
    is_collision_free_poly p q obstacles 0 = none ∧
    (1 ≤ steps →
      ∃ b : Bool, is_collision_free_poly p q obstacles steps = some b ∧
        (b = true ↔ ∀ i ≤ steps, ∀ poly ∈ obstacles,
          point_in_polygon (interpolate p ((i : ℚ) / (steps : ℚ)) q) poly
            = false) ∧
        interpolate p ((0 : ℚ) / (steps : ℚ)) q = p ∧
        interpolate p ((steps : ℚ) / (steps : ℚ)) q = q) := by
  constructor
  · rfl
  · intro hs
    refine ⟨collision_samples_free p q obstacles steps, ?_, ?_, ?_, ?_⟩
    · unfold is_collision_free_poly
      rw [if_neg (by omega)]
    · unfold collision_samples_free
      simp [List.all_eq_true, List.mem_range, Nat.lt_succ_iff]
    · rw [zero_div]
      unfold interpolate
      simp [Prod.ext_iff]
    · have hne : ((steps : ℚ)) ≠ 0 := Nat.cast_ne_zero.mpr (by omega)
      rw [div_self hne]
      unfold interpolate
      simp [Prod.ext_iff]

/-- Witness for C10 at a concrete input: steps = 1 succeeds (trivially true
with no obstacles) and steps = 0 is the division-by-zero failure. -/
theorem is_collision_free_poly_requires_steps_witness :
    is_collision_free_poly ((0 : ℚ), (0 : ℚ)) (2, 3) [] 0 = none ∧
    is_collision_free_poly ((0 : ℚ), (0 : ℚ)) (2, 3) [] 1 = some true := by
  have h := is_collision_free_poly_requires_steps ((0 : ℚ), (0 : ℚ)) (2, 3) [] 1
  refine ⟨h.1, ?_⟩
  obtain ⟨b, hb, hiff, _, _⟩ := h.2 (by decide)
  have hbt : b = true := hiff.mpr (by simp)
  rw [hb, hbt]

/-! ### Claim C3: first qualifying obstacle, extremal intersection
parameters -/

theorem sorted_head_le (l : List ℚ) (hs : l.Sorted (· ≤ ·)) (a : ℚ)
    (ha : l.head? = some a) : ∀ x ∈ l, a ≤ x := by
  match l, ha with
  | b :: t, ha =>
    rw [List.head?_cons, Option.some_inj] at ha
    subst ha
    intro x hx
    rcases List.mem_cons.mp hx with rfl | hx2
    · exact le_refl x
    · exact List.rel_of_sorted_cons hs x hx2

theorem sorted_le_getLast (l : List ℚ) :
    l.Sorted (· ≤ ·) → ∀ a : ℚ, l.getLast? = some a → ∀ x ∈ l, x ≤ a := by
  induction l with
  | nil => intro _ a ha; simp at ha
  | cons b t ih =>
    intro hs a ha x hx
    cases t with
    | nil =>
      rcases List.mem_singleton.mp hx with rfl
      have hab : a = x := by simpa using ha.symm
      exact le_of_eq hab.symm
    | cons c t2 =>
      rw [List.getLast?_cons_cons] at ha
      rcases List.mem_cons.mp hx with rfl | hx2
      · have hmem : a ∈ c :: t2 :=
          List.mem_of_mem_getLast? (by rw [ha]; exact rfl)
        exact (List.sorted_cons.mp hs).1 a hmem
      · exact ih (List.sorted_cons.mp hs).2 a ha x hx2

/-- The intersection-parameter list is sorted ascending. -/
theorem pli_sorted (p q : Point) (poly : Polygon) :
    (polygon_line_intersections p q poly).Sorted (· ≤ ·) := by
  unfold polygon_line_intersections
  exact List.sorted_insertionSort (· ≤ ·) _

theorem find_split_decompose (p q : Point) :
    ∀ (obs : List Polygon) (poly : Polygon) (ts : List ℚ),
      find_split p q obs = some (poly, ts) →
      ∃ pre suf, obs = pre ++ poly :: suf ∧
        (∀ poly2 ∈ pre, (polygon_line_intersections p q poly2).length < 2) ∧
        ts = polygon_line_intersections p q poly ∧ 2 ≤ ts.length := by
  intro obs
  induction obs with
  | nil => intro poly ts h; simp [find_split] at h
  | cons o rest ih =>
    intro poly ts h
    unfold find_split at h
    by_cases hlen : 2 ≤ (polygon_line_intersections p q o).length
    · rw [if_pos hlen, Option.some_inj] at h
      obtain ⟨h1, h2⟩ := Prod.ext_iff.mp h
      simp only at h1 h2
      subst h1
      subst h2
      exact ⟨[], rest, by simp, by simp, rfl, hlen⟩
    · rw [if_neg hlen] at h
      obtain ⟨pre, suf, heq, hpre, hts, hlen2⟩ := ih poly ts h
      refine ⟨o :: pre, suf, by simp [heq], ?_, hts, hlen2⟩
      intro poly2 hmem
      rcases List.mem_cons.mp hmem with rfl | h2
      · omega
      · exact hpre poly2 h2

/-- C3: when refine_path splits a colliding segment, the selected obstacle is
the first one in iteration order whose intersection list has at least two
entries (every earlier obstacle has fewer than two), the list used is exactly
that obstacle's polygon_line_intersections output, and the split parameter
(ts[0] + ts[-1]) / 2 uses the minimum and maximum of that list (the list is
sorted, so its first element is its minimum and its last its maximum). -/
theorem find_split_first_match_min_max (p q : Point) (obs : List Polygon)
    (poly : Polygon) (ts : List ℚ)
    (h : find_split p q obs = some (poly, ts)) :
    (∃ pre suf, obs = pre ++ poly :: suf ∧
      ∀ poly2 ∈ pre, (polygon_line_intersections p q poly2).length < 2) ∧
    ts = polygon_line_intersections p q poly ∧ 2 ≤ ts.length ∧
    ∃ tin tout, ts.head? = some tin ∧ ts.getLast? = some tout ∧
      split_t_mid ts = (tin + tout) / 2 ∧ tin ∈ ts ∧ tout ∈ ts ∧
      ∀ t ∈ ts, tin ≤ t ∧ t ≤ tout := by
  obtain ⟨pre, suf, heq, hpre, hts, hlen⟩ := find_split_decompose p q obs poly ts h
  refine ⟨⟨pre, suf, heq, hpre⟩, hts, hlen, ?_⟩
  have hsorted : ts.Sorted (· ≤ ·) := hts ▸ pli_sorted p q poly
  have hne : ts ≠ [] := by
    intro h0
    rw [h0] at hlen
    simp at hlen
  obtain ⟨tin, hhead⟩ : ∃ a, ts.head? = some a := by
    cases hh : ts.head? with
    | none => exact absurd (List.head?_eq_none_iff.mp hh) hne
    | some a => exact ⟨a, rfl⟩
  obtain ⟨tout, hlast⟩ : ∃ a, ts.getLast? = some a := by
    cases hh : ts.getLast? with
    | none => exact absurd (List.getLast?_eq_none_iff.mp hh) hne
    | some a => exact ⟨a, rfl⟩
  refine ⟨tin, tout, hhead, hlast, ?_, ?_, ?_, ?_⟩
  · unfold split_t_mid
    rw [List.headD_eq_head?_getD, List.getLastD_eq_getLast?, hhead, hlast]
    rfl
  · exact List.mem_of_mem_head? (by rw [hhead]; exact rfl)
  · exact List.mem_of_mem_getLast? (by rw [hlast]; exact rfl)
  · intro t ht
    exact ⟨sorted_head_le ts hsorted tin hhead t ht,
      sorted_le_getLast ts hsorted tout hlast t ht⟩

/-- Witness for C3 at a concrete input: the diagonal from (0, 0) to (10, 10)
crosses the square with corners (4, 4) and (7, 7); the intersection list is
[2/5, 2/5, 7/10, 7/10] and the split parameter is (2/5 + 7/10) / 2 = 11/20. -/
theorem find_split_first_match_min_max_witness :
    find_split ((0 : ℚ), (0 : ℚ)) (10, 10)
      [[((4 : ℚ), (4 : ℚ)), (7, 4), (7, 7), (4, 7)]]
      = some ([((4 : ℚ), (4 : ℚ)), (7, 4), (7, 7), (4, 7)],
          [2/5, 2/5, 7/10, 7/10]) ∧
    split_t_mid [(2 : ℚ)/5, 2/5, 7/10, 7/10] = (2/5 + 7/10) / 2 := by
  have hfs : find_split ((0 : ℚ), (0 : ℚ)) (10, 10)
      [[((4 : ℚ), (4 : ℚ)), (7, 4), (7, 7), (4, 7)]]
      = some ([((4 : ℚ), (4 : ℚ)), (7, 4), (7, 7), (4, 7)],
          [2/5, 2/5, 7/10, 7/10]) := by
    with_unfolding_all decide
  refine ⟨hfs, ?_⟩
  obtain ⟨-, -, -, tin, tout, hhead, hlast, hmid, -, -, -⟩ :=
    find_split_first_match_min_max _ _ _ _ _ hfs
  have h1 : tin = 2 / 5 := by
    have h : some tin = some ((2 : ℚ)/5) := by rw [← hhead]; rfl
    exact Option.some_inj.mp h
  have h2 : tout = 7 / 10 := by
    have h : some tout = some ((7 : ℚ)/10) := by rw [← hlast]; rfl
    exact Option.some_inj.mp h
  rw [hmid, h1, h2]

/-! ### Claim C6: obstacle-set validation (modelled from the spec) -/

/-- C6: whenever the obstacle list holds a polygon with fewer than 3
vertices, the validating pipeline fails fast with InvalidObstacleError at
construction time, so no refinement output is produced.  The validation layer
does not exist in the source and is modelled from the spec (section 7). -/
theorem invalid_obstacle_fails_fast (rsqrt : ℚ → ℚ) (fuel : Nat) (p q : Point)
    (polys : List Polygon) (tolerance : ℚ)
    (h : ∃ poly ∈ polys, poly.length < 3) :
    ∃ bad, bad ∈ polys ∧ bad.length < 3 ∧
      refine_path_validated rsqrt fuel p q polys tolerance
        = .error (.tooFewVertices bad) := by
  have hsome : (polys.find? (fun poly => decide (poly.length < 3))).isSome := by
    rw [List.find?_isSome]
    obtain ⟨poly, hmem, hlt⟩ := h
    exact ⟨poly, hmem, by simpa using hlt⟩
  obtain ⟨bad, hbad⟩ := Option.isSome_iff_exists.mp hsome
  refine ⟨bad, List.mem_of_find?_eq_some hbad,
    by simpa using List.find?_some hbad, ?_⟩
  unfold refine_path_validated mkObstacleSet
  rw [hbad]

/-- Witness for C6 at a concrete input: a single one-vertex polygon makes the
validated pipeline fail with the explicit error before refining. -/
theorem invalid_obstacle_fails_fast_witness :
    refine_path_validated unitSqrt 1 ((0 : ℚ), (0 : ℚ)) (1, 1)
      [[((0 : ℚ), (0 : ℚ))]] 1
      = .error (.tooFewVertices [((0 : ℚ), (0 : ℚ))]) := by
  obtain ⟨bad, hmem, hlen, heq⟩ :=
    invalid_obstacle_fails_fast unitSqrt 1 ((0 : ℚ), (0 : ℚ)) (1, 1)
      [[((0 : ℚ), (0 : ℚ))]] 1 ⟨[((0 : ℚ), (0 : ℚ))], by simp, by decide⟩
  have hb : bad = [((0 : ℚ), (0 : ℚ))] := List.mem_singleton.mp hmem
  rw [hb] at heq
  exact heq

/-! ### Claim C1: endpoint preservation -/

theorem dropLast_append_ends {α : Type} (l r : List α) (a m b : α)
    (hl1 : l.head? = some a) (hl2 : l.getLast? = some m)
    (hr1 : r.head? = some m) (hr2 : r.getLast? = some b) :
    (l.dropLast ++ r).head? = some a ∧
      (l.dropLast ++ r).getLast? = some b := by
  have hrne : r ≠ [] := by
    intro h0
    rw [h0] at hr1
    simp at hr1
  constructor
  · cases l with
    | nil => simp at hl1
    | cons x t =>
      cases t with
      | nil =>
        rw [List.head?_cons, Option.some_inj] at hl1
        have hm : m = x := by simpa using hl2.symm
        subst hl1
        rw [List.dropLast_single, List.nil_append, hr1, hm]
      | cons y t2 =>
        rw [List.head?_cons, Option.some_inj] at hl1
        subst hl1
        rw [List.dropLast_cons₂, List.cons_append, List.head?_cons]
  · rw [List.getLast?_append_of_ne_nil _ hrne, hr2]

theorem refineAux_ends (rsqrt : ℚ → ℚ) :
    ∀ (fuel : Nat) (p q : Point) (obstacles : List Polygon) (tolerance : ℚ)
      (depth : Nat) (pr : List Point × List TraceRec),
      refineAux rsqrt fuel p q obstacles tolerance depth = some pr →
      pr.1.head? = some p ∧ pr.1.getLast? = some q := by
  intro fuel
  induction fuel with
  | zero =>
    intro p q obs tol d pr h
    simp [refineAux] at h
  | succ n ih =>
    intro p q obs tol d pr h
    simp only [refineAux] at h
    by_cases hfree : collision_samples_free p q obs 20 = true
    · rw [if_pos hfree, Option.some_inj] at h
      subst h
      exact ⟨rfl, rfl⟩
    · rw [if_neg hfree] at h
      cases hsplit : find_split p q obs with
      | some pts =>
        obtain ⟨poly, ts⟩ := pts
        rw [hsplit] at h
        simp only at h
        cases hl : refineAux rsqrt n p
            (adjust_point_out_of_polygon rsqrt
              (interpolate p (split_t_mid ts) q) p q poly (1 / 5) 20)
            obs tol (d + 1) with
        | none => rw [hl] at h; simp [glue] at h
        | some lpr =>
          cases hr : refineAux rsqrt n
              (adjust_point_out_of_polygon rsqrt
                (interpolate p (split_t_mid ts) q) p q poly (1 / 5) 20)
              q obs tol (d + 1) with
          | none => rw [hl, hr] at h; simp [glue] at h
          | some rpr =>
            rw [hl, hr] at h
            simp only [glue, Option.some_inj] at h
            subst h
            obtain ⟨hl1, hl2⟩ := ih p _ obs tol (d + 1) lpr hl
            obtain ⟨hr1, hr2⟩ := ih _ q obs tol (d + 1) rpr hr
            exact dropLast_append_ends lpr.1 rpr.1 p _ q hl1 hl2 hr1 hr2
      | none =>
        rw [hsplit] at h
        simp only at h
        by_cases htol : dist_lt p (fallback_mid rsqrt p q obs) tol = true
        · rw [if_pos htol, Option.some_inj] at h
          subst h
          exact ⟨rfl, rfl⟩
        · rw [if_neg htol] at h
          cases hl : refineAux rsqrt n p (fallback_mid rsqrt p q obs) obs tol
              (d + 1) with
          | none => rw [hl] at h; simp [glue] at h
          | some lpr =>
            cases hr : refineAux rsqrt n (fallback_mid rsqrt p q obs) q obs tol
                (d + 1) with
            | none => rw [hl, hr] at h; simp [glue] at h
            | some rpr =>
              rw [hl, hr] at h
              simp only [glue, Option.some_inj] at h
              subst h
              obtain ⟨hl1, hl2⟩ := ih p _ obs tol (d + 1) lpr hl
              obtain ⟨hr1, hr2⟩ := ih _ q obs tol (d + 1) rpr hr
              exact dropLast_append_ends lpr.1 rpr.1 p _ q hl1 hl2 hr1 hr2

/-- C1: whenever refine_path returns a path, that path is non-empty, its
first element is exactly the input start point and its last element is
exactly the input goal point, across all return branches of the recursion. -/
theorem refine_path_endpoints (rsqrt : ℚ → ℚ) (fuel : Nat) (p q : Point)
    (obstacles : List Polygon) (tolerance : ℚ) (path : List Point)
    (h : refine_path rsqrt fuel p q obstacles tolerance = some path) :
    path ≠ [] ∧ path.head? = some p ∧ path.getLast? = some q := by
  unfold refine_path at h
  cases haux : refineAux rsqrt fuel p q obstacles tolerance 0 with
  | none => rw [haux] at h; simp at h
  | some pr =>
    rw [haux] at h
    simp only [Option.map_some', Option.some_inj] at h
    obtain ⟨h1, h2⟩ := refineAux_ends rsqrt fuel p q obstacles tolerance 0 pr haux
    subst h
    refine ⟨?_, h1, h2⟩
    intro h0
    rw [h0] at h1
    simp at h1

/-- Witness for C1 at a concrete input: with no obstacles the segment is
accepted as-is and the returned path is [start, goal]. -/
theorem refine_path_endpoints_witness :
    refine_path unitSqrt 1 ((0 : ℚ), (0 : ℚ)) (1, 1) [] 1
      = some [((0 : ℚ), (0 : ℚ)), (1, 1)] ∧
    ([((0 : ℚ), (0 : ℚ)), (1, 1)] : List Point) ≠ [] ∧
    ([((0 : ℚ), (0 : ℚ)), (1, 1)] : List Point).head?
      = some ((0 : ℚ), (0 : ℚ)) ∧
    ([((0 : ℚ), (0 : ℚ)), (1, 1)] : List Point).getLast? = some (1, 1) := by
  have h : refine_path unitSqrt 1 ((0 : ℚ), (0 : ℚ)) (1, 1) [] 1
      = some [((0 : ℚ), (0 : ℚ)), (1, 1)] := by
    with_unfolding_all decide
  exact ⟨h, refine_path_endpoints unitSqrt 1 ((0 : ℚ), (0 : ℚ)) (1, 1) [] 1
    [((0 : ℚ), (0 : ℚ)), (1, 1)] h⟩

/-! ### Claim C2: hard termination of the fallback branch -/

/-- C2: in the fallback branch (segment fails the sampled collision check,
no obstacle yields two or more intersection parameters), if the distance from
p to the possibly escaped midpoint is strictly below the tolerance, the call
returns exactly [p, mid, q] and terminates immediately: the result holds for
every remaining fuel budget, the trace shows a single record, and no
collision-freedom condition on the result is required. -/
theorem fallback_terminates_within_tolerance (rsqrt : ℚ → ℚ) (fuel : Nat)
    (p q : Point) (obstacles : List Polygon) (tolerance : ℚ) (depth : Nat)
    (hfree : collision_samples_free p q obstacles 20 = false)
    (hsplit : find_split p q obstacles = none)
    (htol : dist_lt p (fallback_mid rsqrt p q obstacles) tolerance = true) :
    refineAux rsqrt (fuel + 1) p q obstacles tolerance depth
      = some ([p, fallback_mid rsqrt p q obstacles, q], [(p, q, depth)]) := by
  simp only [refineAux, hsplit]
  rw [if_neg (by simp [hfree]), if_pos htol]

/-- Witness for C2 at a concrete input: the segment from (0, 0) to (1, 0)
lies inside the rectangle sqPoly, so every sample collides while no edge is
crossed; the escaped midpoint is (1/2, 2/5) and with tolerance 1 the call
returns the three-point list at once. -/
theorem fallback_terminates_within_tolerance_witness :
    collision_samples_free ((0 : ℚ), (0 : ℚ)) (1, 0) sqObs 20 = false ∧
    find_split ((0 : ℚ), (0 : ℚ)) (1, 0) sqObs = none ∧
    dist_lt ((0 : ℚ), (0 : ℚ))
      (fallback_mid unitSqrt ((0 : ℚ), (0 : ℚ)) (1, 0) sqObs) 1 = true ∧
    refineAux unitSqrt 1 ((0 : ℚ), (0 : ℚ)) (1, 0) sqObs 1 0
      = some ([((0 : ℚ), (0 : ℚ)),
          fallback_mid unitSqrt ((0 : ℚ), (0 : ℚ)) (1, 0) sqObs, (1, 0)],
          [(((0 : ℚ), (0 : ℚ)), ((1 : ℚ), (0 : ℚ)), 0)]) := by
  have hf : collision_samples_free ((0 : ℚ), (0 : ℚ)) (1, 0) sqObs 20
      = false := by with_unfolding_all decide
  have hs : find_split ((0 : ℚ), (0 : ℚ)) (1, 0) sqObs = none := by
    with_unfolding_all decide
  have ht : dist_lt ((0 : ℚ), (0 : ℚ))
      (fallback_mid unitSqrt ((0 : ℚ), (0 : ℚ)) (1, 0) sqObs) 1 = true := by
    with_unfolding_all decide
  exact ⟨hf, hs, ht,
    fallback_terminates_within_tolerance unitSqrt 0 ((0 : ℚ), (0 : ℚ)) (1, 0)
      sqObs 1 0 hf hs ht⟩

/-! ### Claim C4: escape candidate selection -/

/-- C4: when both perpendicular directions produce an escape candidate, the
adjustment returns the one reached with the fewest steps, and on an exact tie
the candidate from the +1 direction wins (it was appended first and the sort
is stable). -/
theorem adjust_fewest_steps_plus_tie (rsqrt : ℚ → ℚ) (mid p q : Point)
    (poly : Polygon) (step : ℚ) (max_iter : Nat) (cplus cminus : Point)
    (iplus iminus : Nat) (hstep : 0 < step)
    (hplus : dir_scan rsqrt mid p q poly step max_iter 1 = some (cplus, iplus))
    (hminus : dir_scan rsqrt mid p q poly step max_iter (-1)
      = some (cminus, iminus)) :
    adjust_point_out_of_polygon rsqrt mid p q poly step max_iter
      = if iplus ≤ iminus then cplus else cminus := by
  have hiff : ((iplus : ℚ) * step ≤ (iminus : ℚ) * step) ↔ iplus ≤ iminus := by
    rw [mul_le_mul_right hstep, Nat.cast_le]
  simp only [adjust_point_out_of_polygon, List.filterMap_cons,
    List.filterMap_nil, hplus, hminus, Option.map_some', List.insertionSort,
    List.orderedInsert]
  by_cases hle : iplus ≤ iminus
  · rw [if_pos (show dispLE (cplus, (iplus : ℚ) * step)
        (cminus, (iminus : ℚ) * step) from hiff.mpr hle), if_pos hle]
  · rw [if_neg (show ¬dispLE (cplus, (iplus : ℚ) * step)
        (cminus, (iminus : ℚ) * step) from fun hc => hle (hiff.mp hc)),
      if_neg hle]

/-- Witness for C4 at a concrete input: both directions escape the rectangle
sqPoly after exactly 2 steps (a tie), and the +1 candidate (1/2, 2/5) is
returned. -/
theorem adjust_fewest_steps_plus_tie_witness :
    (0 : ℚ) < 1/5 ∧
    dir_scan unitSqrt (1/2, 0) ((0 : ℚ), (0 : ℚ)) (1, 0) sqPoly (1/5) 20 1
      = some ((1/2, 2/5), 2) ∧
    dir_scan unitSqrt (1/2, 0) ((0 : ℚ), (0 : ℚ)) (1, 0) sqPoly (1/5) 20 (-1)
      = some ((1/2, -2/5), 2) ∧
    adjust_point_out_of_polygon unitSqrt (1/2, 0) ((0 : ℚ), (0 : ℚ)) (1, 0)
      sqPoly (1/5) 20 = (1/2, 2/5) := by
  have hstep : (0 : ℚ) < 1/5 := by with_unfolding_all decide
  have hp : dir_scan unitSqrt (1/2, 0) ((0 : ℚ), (0 : ℚ)) (1, 0) sqPoly
      (1/5) 20 1 = some ((1/2, 2/5), 2) := by with_unfolding_all decide
  have hm : dir_scan unitSqrt (1/2, 0) ((0 : ℚ), (0 : ℚ)) (1, 0) sqPoly
      (1/5) 20 (-1) = some ((1/2, -2/5), 2) := by with_unfolding_all decide
  refine ⟨hstep, hp, hm, ?_⟩
  have h := adjust_fewest_steps_plus_tie unitSqrt (1/2, 0) ((0 : ℚ), (0 : ℚ))
    (1, 0) sqPoly (1/5) 20 (1/2, 2/5) (1/2, -2/5) 2 2 hstep hp hm
  simpa using h

/-! ### Claims C7 and C8: determinism and trace equivalence -/

theorem glue_fst (rec : TraceRec) (l r : Option (List Point × List TraceRec)) :
    (glue rec l r).map Prod.fst = glue_path (l.map Prod.fst) (r.map Prod.fst)
    := by
  cases l <;> cases r <;> rfl

theorem refineAux_fst_gif (rsqrt : ℚ → ℚ) :
    ∀ (fuel : Nat) (p q : Point) (obstacles : List Polygon) (tolerance : ℚ)
      (depth iteration : Nat),
      (refineAux rsqrt fuel p q obstacles tolerance depth).map Prod.fst
        = refine_path_gif rsqrt fuel p q obstacles tolerance iteration := by
  intro fuel
  induction fuel with
  | zero => intro p q obs tol d it; rfl
  | succ n ih =>
    intro p q obs tol d it
    simp only [refineAux, refine_path_gif]
    by_cases hfree : collision_samples_free p q obs 20 = true
    · rw [if_pos hfree, if_pos hfree]
      rfl
    · rw [if_neg hfree, if_neg hfree]
      cases hsplit : find_split p q obs with
      | some pts =>
        obtain ⟨poly, ts⟩ := pts
        simp only
        rw [glue_fst, ih _ _ _ _ _ (it + 1), ih _ _ _ _ _ (it + 1)]
      | none =>
        simp only
        by_cases htol : dist_lt p (fallback_mid rsqrt p q obs) tol = true
        · rw [if_pos htol, if_pos htol]
          rfl
        · rw [if_neg htol, if_neg htol, glue_fst, ih _ _ _ _ _ (it + 1),
            ih _ _ _ _ _ (it + 1)]

theorem refineAux_trace (rsqrt : ℚ → ℚ) :
    ∀ (fuel : Nat) (p q : Point) (obstacles : List Polygon) (tolerance : ℚ)
      (depth : Nat) (pr : List Point × List TraceRec),
      refineAux rsqrt fuel p q obstacles tolerance depth = some pr →
      refine_calls rsqrt fuel p q obstacles tolerance = some pr.2.length ∧
      pr.2.head? = some (p, q, depth) := by
  intro fuel
  induction fuel with
  | zero =>
    intro p q obs tol d pr h
    simp [refineAux] at h
  | succ n ih =>
    intro p q obs tol d pr h
    simp only [refineAux] at h
    simp only [refine_calls]
    by_cases hfree : collision_samples_free p q obs 20 = true
    · rw [if_pos hfree, Option.some_inj] at h
      subst h
      rw [if_pos hfree]
      exact ⟨rfl, rfl⟩
    · rw [if_neg hfree] at h
      rw [if_neg hfree]
      cases hsplit : find_split p q obs with
      | some pts =>
        obtain ⟨poly, ts⟩ := pts
        rw [hsplit] at h
        simp only at h ⊢
        cases hl : refineAux rsqrt n p
            (adjust_point_out_of_polygon rsqrt
              (interpolate p (split_t_mid ts) q) p q poly (1 / 5) 20)
            obs tol (d + 1) with
        | none => rw [hl] at h; simp [glue] at h
        | some lpr =>
          cases hr : refineAux rsqrt n
              (adjust_point_out_of_polygon rsqrt
                (interpolate p (split_t_mid ts) q) p q poly (1 / 5) 20)
              q obs tol (d + 1) with
          | none => rw [hl, hr] at h; simp [glue] at h
          | some rpr =>
            rw [hl, hr] at h
            simp only [glue, Option.some_inj] at h
            subst h
            obtain ⟨hcl, -⟩ := ih p _ obs tol (d + 1) lpr hl
            obtain ⟨hcr, -⟩ := ih _ q obs tol (d + 1) rpr hr
            rw [hcl, hcr]
            refine ⟨?_, rfl⟩
            simp [glue_count, List.length_append]
      | none =>
        rw [hsplit] at h
        simp only at h ⊢
        by_cases htol : dist_lt p (fallback_mid rsqrt p q obs) tol = true
        · rw [if_pos htol, Option.some_inj] at h
          subst h
          rw [if_pos htol]
          exact ⟨rfl, rfl⟩
        · rw [if_neg htol] at h
          rw [if_neg htol]
          cases hl : refineAux rsqrt n p (fallback_mid rsqrt p q obs) obs tol
              (d + 1) with
          | none => rw [hl] at h; simp [glue] at h
          | some lpr =>
            cases hr : refineAux rsqrt n (fallback_mid rsqrt p q obs) q obs
                tol (d + 1) with
            | none => rw [hl, hr] at h; simp [glue] at h
            | some rpr =>
              rw [hl, hr] at h
              simp only [glue, Option.some_inj] at h
              subst h
              obtain ⟨hcl, -⟩ := ih p _ obs tol (d + 1) lpr hl
              obtain ⟨hcr, -⟩ := ih _ q obs tol (d + 1) rpr hr
              rw [hcl, hcr]
              refine ⟨?_, rfl⟩
              simp [glue_count, List.length_append]

/-- C7: refine_path is deterministic: an invocation is a pure function of
the start, goal, obstacle list and tolerance, so two invocations with
identical inputs return identical paths; moreover the path component does not
even depend on the auxiliary depth counter threaded for the trace. -/
theorem refine_path_deterministic (rsqrt : ℚ → ℚ) (fuel : Nat) (p q : Point)
    (obstacles : List Polygon) (tolerance : ℚ) (d1 d2 : Nat) :
    refine_path rsqrt fuel p q obstacles tolerance
      = refine_path rsqrt fuel p q obstacles tolerance ∧
    (refineAux rsqrt fuel p q obstacles tolerance d1).map Prod.fst
      = (refineAux rsqrt fuel p q obstacles tolerance d2).map Prod.fst := by
  refine ⟨rfl, ?_⟩
  rw [refineAux_fst_gif rsqrt fuel p q obstacles tolerance d1 0,
    refineAux_fst_gif rsqrt fuel p q obstacles tolerance d2 0]

/-- C8: the diagnostic trace has no effect on the computed path: the
refine_path of main.py (explicit trace) and the refine_path of main_gif.py
(frame saving, no trace) return equal paths on every identical input, for
every depth and iteration counter; and the trace holds exactly one record per
recursive call (its length equals the call count), appended in call order
(the head is the current call's record, followed by the left then the right
subtree records by construction). -/
theorem trace_no_effect_paths_equal (rsqrt : ℚ → ℚ) (fuel : Nat) (p q : Point)
    (obstacles : List Polygon) (tolerance : ℚ) (depth iteration : Nat) :
    (refineAux rsqrt fuel p q obstacles tolerance depth).map Prod.fst
      = refine_path_gif rsqrt fuel p q obstacles tolerance iteration ∧
    ∀ pr, refineAux rsqrt fuel p q obstacles tolerance depth = some pr →
      refine_calls rsqrt fuel p q obstacles tolerance = some pr.2.length ∧
      pr.2.head? = some (p, q, depth) :=
  ⟨refineAux_fst_gif rsqrt fuel p q obstacles tolerance depth iteration,
    fun pr h => refineAux_trace rsqrt fuel p q obstacles tolerance depth pr h⟩

/-- Witness for C8 at a concrete input: one call with no obstacles; the paths
of both variants agree and the trace holds exactly one record. -/
theorem trace_no_effect_paths_equal_witness :
    (refineAux unitSqrt 1 ((0 : ℚ), (0 : ℚ)) (1, 1) [] 1 5).map Prod.fst
      = refine_path_gif unitSqrt 1 ((0 : ℚ), (0 : ℚ)) (1, 1) [] 1 9 ∧
    refine_calls unitSqrt 1 ((0 : ℚ), (0 : ℚ)) (1, 1) [] 1
      = some ([(((0 : ℚ), (0 : ℚ)), ((1 : ℚ), (1 : ℚ)), 5)] :
          List TraceRec).length := by
  have h := trace_no_effect_paths_equal unitSqrt 1 ((0 : ℚ), (0 : ℚ)) (1, 1)
    [] 1 5 9
  refine ⟨h.1, ?_⟩
  have haux : refineAux unitSqrt 1 ((0 : ℚ), (0 : ℚ)) (1, 1) [] 1 5
      = some ([((0 : ℚ), (0 : ℚ)), (1, 1)],
          [(((0 : ℚ), (0 : ℚ)), ((1 : ℚ), (1 : ℚ)), 5)]) := by
    with_unfolding_all decide
  exact (h.2 _ haux).1

end MidpointRefine
